import Mathlib

/-!
Shallow embedding of the cost-analytics core of the Cloud-Cost-Optimizer
repository (src/server/api/cost.ts and the chat endpoint in src/unnamed/part_002),
together with theorems settling the frozen claims about it.

Number model: JavaScript numbers are modelled as exact rationals; `JSNum` is
`Option ℚ` where `none` stands for a non-finite value (NaN, or the result of a
division by zero, which in JavaScript is NaN or an infinity).  All numeric
literals in the source (including 1.2) are taken at their decimal value.
Overflow and float rounding are outside the model.
-/

/-- JavaScript number: `some q` is the finite value `q`, `none` a non-finite
value (NaN, or the outcome of a division by zero). -/
abbrev JSNum := Option ℚ

/-- JS `+` on numbers: any non-finite operand poisons the result. -/
def jadd : JSNum → JSNum → JSNum
  | some a, some b => some (a + b)
  | _, _ => none

/-- JS `-` on numbers. -/
def jsub : JSNum → JSNum → JSNum
  | some a, some b => some (a - b)
  | _, _ => none

/-- JS `*` on numbers. -/
def jmul : JSNum → JSNum → JSNum
  | some a, some b => some (a * b)
  | _, _ => none

/-- JS `/` on numbers.  A zero denominator yields NaN or an infinity in JS;
both are collapsed to `none` here.  The only embedded call site where the
denominator can be zero while the comparison on the result matters is
`compareWithBenchmarks` with `averageCostPerUnit = 0`; theorems about it
therefore assume a nonzero average. -/
def jdiv : JSNum → JSNum → JSNum
  | some a, some b => if b = 0 then none else some (a / b)
  | _, _ => none

/-- JS `x >= y`: false when either side is non-finite (NaN comparisons). -/
def jge (x y : JSNum) : Bool :=
  match x, y with
  | some a, some b => b ≤ a
  | _, _ => false

/-- JS `x > y`: false when either side is non-finite. -/
def jgt (x y : JSNum) : Bool :=
  match x, y with
  | some a, some b => b < a
  | _, _ => false

/-- JS `x || y` on numbers: `y` when `x` is falsy (0 or NaN), else `x`. -/
def jorDefault (x y : JSNum) : JSNum :=
  match x with
  | none => y
  | some a => if a = 0 then y else x

/-- Running JS sum `0 + c₁ + ⋯ + cₙ` of a list of numbers. -/
def sumJS (l : List JSNum) : JSNum := l.foldl jadd (some 0)

/-- Numeric value of a list of decimal digit characters (most significant
first), as read by `parseInt` / `parseFloat` on an all-digit run. -/
def digitsVal (ds : List Char) : ℕ :=
  ds.foldl (fun a c => a * 10 + (c.toNat - 48)) 0

/-- `parseFloat` of JavaScript on a character list: skip leading whitespace,
optional sign, integer digits, optional fraction, optional exponent; the
longest valid numeric prefix is taken and the rest ignored; when no digits are
found the result is NaN (`none`).  The textual forms `Infinity`/`-Infinity`,
which `parseFloat` also accepts, are not modelled (treated as unparsable);
no embedded call site feeds them. -/
def parseFloatJS (cs : List Char) : JSNum :=
  let cs1 := cs.dropWhile Char.isWhitespace
  let neg := cs1.head? = some '-'
  let cs2 := if cs1.head? = some '-' ∨ cs1.head? = some '+' then cs1.tail else cs1
  let intDs := cs2.takeWhile Char.isDigit
  let rest1 := cs2.dropWhile Char.isDigit
  let hasDot := rest1.head? = some '.'
  let fracDs := if hasDot then rest1.tail.takeWhile Char.isDigit else []
  let rest2 := if hasDot then rest1.tail.dropWhile Char.isDigit else rest1
  if intDs.isEmpty ∧ fracDs.isEmpty then none
  else
    let sgn : ℚ := if neg then -1 else 1
    let mant : ℚ := (digitsVal intDs : ℚ) + (digitsVal fracDs : ℚ) / (10 : ℚ) ^ fracDs.length
    let e : ℤ :=
      if rest2.head? = some 'e' ∨ rest2.head? = some 'E' then
        let r := rest2.tail
        let eneg := r.head? = some '-'
        let r2 := if r.head? = some '-' ∨ r.head? = some '+' then r.tail else r
        let eds := r2.takeWhile Char.isDigit
        if eds.isEmpty then 0
        else if eneg then -(digitsVal eds : ℤ) else (digitsVal eds : ℤ)
      else 0
    some (sgn * mant * (10 : ℚ) ^ e)

/-- A raw cost cell, which the billing feed delivers either as a number or as
a string (src/unnamed/part_002, `RawServiceData.cost: number | string`). -/
inductive CostVal where
  | num (q : ℚ)
  | str (s : String)
deriving DecidableEq

/-- `parseCost` of src/unnamed/part_002 lines 54-57: a numeric cost is kept;
a string cost has every character other than digits, dot and minus stripped
(`replace(/[^\d.-]/g, "")`), is fed to `parseFloat`, and `|| 0` turns a NaN
(and 0 itself, a no-op) into 0. -/
def parseCost : CostVal → ℚ
  | .num q => q
  | .str s =>
    match parseFloatJS (s.data.filter (fun c => c.isDigit || c = '.' || c = '-')) with
    | some q => q
    | none => 0

/-- Cost of one raw row as read by `getDailyCostData` line 584:
`parseFloat(String(row[0]))`.  For a numeric cell, `String` renders the number
and `parseFloat` reads it back (the identity on finite JS numbers); for a
string cell, `parseFloat` is applied to it directly. -/
def parseRowCost : CostVal → JSNum
  | .num q => some q
  | .str s => parseFloatJS s.data

/-- One raw billing row `[cost, dateKey, serviceName]` (cost.ts rows). -/
structure Row where
  cost : CostVal
  dateKey : String
  service : String
deriving DecidableEq

/-- Per-service cost entry (interface `ServiceCost` of cost.ts). -/
structure ServiceCost where
  service : String
  cost : JSNum
deriving DecidableEq

/-- One aggregated day (interface `DailyCostData` of cost.ts). -/
structure DailyCostData where
  date : String
  cost : JSNum
  serviceBreakdown : List ServiceCost
deriving DecidableEq

/-- The date-key rewrite of line 582:
`String(row[1]).replace(/(\d{4})(\d{2})(\d{2})/, "$1-$2-$3")` — the leftmost
run of 8 consecutive digits is rewritten to dashed `YYYY-MM-DD` form; a string
without such a run is unchanged. -/
def convertKey : List Char → List Char
  | [] => []
  | c :: cs =>
    if ((c :: cs).take 8).length = 8 ∧ ((c :: cs).take 8).all Char.isDigit then
      let ds := (c :: cs).take 8
      ds.take 4 ++ '-' :: (ds.drop 4).take 2 ++ '-' :: (ds.drop 6).take 2 ++ (c :: cs).drop 8
    else c :: convertKey cs

/-- String form of the date-key rewrite. -/
def convertDateKey (s : String) : String := ⟨convertKey s.data⟩

/-- Processing of one row by the aggregation loop of `getDailyCostData`
(lines 581-596): group by the converted date string; a first-seen date gets a
fresh record with cost 0 and an empty breakdown; then the row cost is added to
the day total and an entry is appended to the breakdown.  The JS object holding
the groups enumerates its (dashed, hence non-index-like) keys in insertion
order, modelled by keeping the record list in first-appearance order. -/
def addRow (acc : List DailyCostData) (row : Row) : List DailyCostData :=
  let dateStr := convertDateKey row.dateKey
  let c := parseRowCost row.cost
  if acc.any (fun r => r.date == dateStr) then
    acc.map (fun r =>
      if r.date == dateStr then
        { r with cost := jadd r.cost c,
                 serviceBreakdown := r.serviceBreakdown ++ [{ service := row.service, cost := c }] }
      else r)
  else
    acc ++ [{ date := dateStr, cost := jadd (some 0) c,
              serviceBreakdown := [{ service := row.service, cost := c }] }]

/-- The Daily Cost Aggregator, `getDailyCostData` lines 579-598, restricted to
its pure aggregation of already-fetched rows (the surrounding HTTP fetch is an
external collaborator). -/
def getDailyCostData (rows : List Row) : List DailyCostData :=
  rows.foldl addRow []

/-- The order in which a JS object with non-index-like string keys enumerates
them: each key at its first appearance. -/
def firstOccs (l : List String) : List String :=
  l.foldl (fun ds d => if d ∈ ds then ds else ds ++ [d]) []

/-- Whether a string would be treated as an array-index key by a JS object
(canonical decimal form; the 2^32 bound is not modelled).  Date keys in dashed
`YYYY-MM-DD` form are never index-like. -/
def isArrayIndexKey (s : String) : Bool :=
  !s.data.isEmpty && s.data.all Char.isDigit && (s.data.head? ≠ some '0' || s.data.length = 1)

/-- Day number of the first day of month `m` (1-12) of year `y`, with day 0 at
1970-01-01 (the civil-from-days correspondence used by JS `Date`). -/
def daysFromCivil (y : ℤ) (m : ℕ) : ℤ :=
  let y2 : ℤ := if m ≤ 2 then y - 1 else y
  let era : ℤ := Int.fdiv y2 400
  let yoe : ℤ := y2 - era * 400
  let mp : ℕ := (m + 9) % 12
  let doy : ℤ := ((153 * mp + 2) / 5 : ℕ)
  let doe : ℤ := yoe * 365 + yoe / 4 - yoe / 100 + doy
  era * 146097 + doe - 719468

/-- Day number of `new Date(y, monthIndex, d)` (month index 0-based):
out-of-range month indices and day values roll over exactly as in JS. -/
def jsMakeDate (y monthIndex d : ℤ) : ℤ :=
  let ym := y * 12 + monthIndex
  let ny := Int.fdiv ym 12
  let nm := ym - 12 * ny
  daysFromCivil ny (nm.toNat + 1) + (d - 1)

/-- The current civil date, as JS `new Date()` / `getFullYear` / `getMonth` /
`getDate` expose it (month 0-based, day 1-based).  The model assumes the local
zone and UTC agree on the date (the source formats dates via `toISOString`). -/
structure JsNow where
  year : ℤ
  month : ℕ
  day : ℕ
deriving DecidableEq

/-- Day number of today. -/
def todayNum (now : JsNow) : ℤ := jsMakeDate now.year now.month now.day

/-- Result of the Time-Range Resolver (interface `TimeRange` of cost.ts).
`start`/`stop` carry day numbers; the source carries the same dates as
ISO `YYYY-MM-DD` strings (`toISOString().split("T")[0]`); the field named
`end` in the source is called `stop` here (`end` is a Lean keyword). -/
structure TimeRange where
  timeframe : String
  start : Option ℤ := none
  stop : Option ℤ := none
deriving DecidableEq

/-- `x` is a prefix of `y` (plain character comparison). -/
def matchPre : List Char → List Char → Bool
  | [], _ => true
  | _ :: _, [] => false
  | a :: as, b :: bs => a = b && matchPre as bs

/-- The twelve month names in the alternation order of the regex at line 462,
paired with the 0-based month index of `monthMap` (lines 467-480). -/
def monthNames : List (List Char × ℕ) :=
  [("january".data, 0), ("february".data, 1), ("march".data, 2), ("april".data, 3),
   ("may".data, 4), ("june".data, 5), ("july".data, 6), ("august".data, 7),
   ("september".data, 8), ("october".data, 9), ("november".data, 10), ("december".data, 11)]

/-- Try the month-year pattern `/(january|…|december)\s+(\d{4})/i` at one
position of the (already lowercased) input: a month name, one or more
whitespace characters, then at least four digits of which the first four are
the captured year. -/
def tryMonthYearAt (cs : List Char) : Option (ℕ × ℕ) :=
  monthNames.findSome? (fun nm =>
    if matchPre nm.1 cs then
      let rest := cs.drop nm.1.length
      let ws := rest.takeWhile Char.isWhitespace
      let r2 := rest.drop ws.length
      if !ws.isEmpty && (r2.take 4).length = 4 && (r2.take 4).all Char.isDigit then
        some (nm.2, digitsVal (r2.take 4))
      else none
    else none)

/-- Leftmost match of the month-year pattern (regex search semantics). -/
def findMonthYear : List Char → Option (ℕ × ℕ)
  | [] => none
  | c :: cs =>
    match tryMonthYearAt (c :: cs) with
    | some r => some r
    | none => findMonthYear cs

/-- Try `/last (\d+) days?/i` at one position of the lowercased input:
literal `last `, one or more digits (the capture), then literal ` day`
(the trailing `s?` cannot affect the match). -/
def tryLastDaysAt (cs : List Char) : Option ℕ :=
  if matchPre "last ".data cs then
    let r := cs.drop 5
    let ds := r.takeWhile Char.isDigit
    if ds.isEmpty then none
    else if matchPre " day".data (r.drop ds.length) then some (digitsVal ds) else none
  else none

/-- Leftmost match of the last-N-days pattern. -/
def findLastDays : List Char → Option ℕ
  | [] => none
  | c :: cs =>
    match tryLastDaysAt (c :: cs) with
    | some r => some r
    | none => findLastDays cs

/-- The Time-Range Resolver, `getTimeRange` lines 457-544: month-year pattern
first, then last-N-days, then the lowercased-string switch, default
month-to-date.  Total by construction: every input falls into some branch. -/
def getTimeRange (now : JsNow) (period : String) : TimeRange :=
  let low := period.data.map Char.toLower
  match findMonthYear low with
  | some my =>
    { timeframe := "Custom",
      start := some (jsMakeDate my.2 my.1 1),
      stop := some (jsMakeDate my.2 (my.1 + 1) 0) }
  | none =>
    match findLastDays low with
    | some n =>
      { timeframe := "Custom",
        start := some (jsMakeDate now.year now.month ((now.day : ℤ) - n)),
        stop := some (todayNum now) }
    | none =>
      if low = "last month".data then
        { timeframe := "Custom",
          start := some (jsMakeDate now.year ((now.month : ℤ) - 1) 1),
          stop := some (jsMakeDate now.year now.month 0) }
      else if low = "last 3 months".data then
        { timeframe := "Custom",
          start := some (jsMakeDate now.year ((now.month : ℤ) - 3) 1),
          stop := some (jsMakeDate now.year now.month 0) }
      else if low = "last 6 months".data then
        { timeframe := "Custom",
          start := some (jsMakeDate now.year ((now.month : ℤ) - 6) 1),
          stop := some (jsMakeDate now.year now.month 0) }
      else if low = "year to date".data then
        { timeframe := "YearToDate" }
      else
        { timeframe := "MonthToDate" }

/-- The content of one spike report (lines 750-757).  The source renders these
fields into one markdown string per spike; the embedding keeps them
structured. -/
structure SpikeOut where
  date : String
  percentageIncrease : JSNum
  previousCost : JSNum
  currentCost : JSNum
  servicesAffected : List ServiceCost
deriving DecidableEq

/-- One iteration of the spike loop (lines 743-758) on an adjacent day pair:
`increasePercentage = ((current − prev) / (prev || 1)) * 100`,
`increaseAbsolute = current − prev`; the day is reported when
`increasePercentage >= percentageThreshold || increaseAbsolute >= absoluteThreshold`,
carrying the services of positive cost. -/
def spikeStep (percentageThreshold absoluteThreshold : ℚ) (prev cur : DailyCostData) :
    Option SpikeOut :=
  let pct := jmul (jdiv (jsub cur.cost prev.cost) (jorDefault prev.cost (some 1))) (some 100)
  let inc := jsub cur.cost prev.cost
  if jge pct (some percentageThreshold) || jge inc (some absoluteThreshold) then
    some { date := cur.date, percentageIncrease := pct,
           previousCost := prev.cost, currentCost := cur.cost,
           servicesAffected := cur.serviceBreakdown.filter (fun s => jgt s.cost (some 0)) }
  else none

/-- The loop of `detectCostSpikes` from index 1 upward, carrying the previous
day. -/
def spikesGo (p a : ℚ) : DailyCostData → List DailyCostData → List SpikeOut
  | _, [] => []
  | prev, cur :: rest => (spikeStep p a prev cur).toList ++ spikesGo p a cur rest

/-- The Spike Detector, `detectCostSpikes` lines 739-762 (defaults 10 and 500
at the declaration; the primary pass at line 873 passes 5 and 50). -/
def detectCostSpikes (dailyCosts : List DailyCostData) (percentageThreshold : ℚ := 10)
    (absoluteThreshold : ℚ := 500) : List SpikeOut :=
  match dailyCosts with
  | [] => []
  | first :: rest => spikesGo percentageThreshold absoluteThreshold first rest

/-- Whether year `y` is a leap year. -/
def isLeap (y : ℤ) : Bool := y % 4 = 0 && (y % 100 ≠ 0 || y % 400 = 0)

/-- Number of days of month `m` (1-12) of year `y`. -/
def daysInMonth (y : ℤ) (m : ℕ) : ℕ :=
  if m = 2 then (if isLeap y then 29 else 28)
  else if m = 4 ∨ m = 6 ∨ m = 9 ∨ m = 11 then 30
  else 31

/-- JS `new Date(s)` on a date-only string: a well-formed `YYYY-MM-DD` string
with a valid calendar date parses to (year, month 1-12, day); anything else is
an Invalid Date (`none`).  Longer ISO forms with a time part never reach this
point (the aggregator emits exactly `YYYY-MM-DD`). -/
def parseIso (s : String) : Option (ℤ × ℕ × ℕ) :=
  match s.data with
  | [y1, y2, y3, y4, '-', m1, m2, '-', d1, d2] =>
    if [y1, y2, y3, y4, m1, m2, d1, d2].all Char.isDigit then
      let y := digitsVal [y1, y2, y3, y4]
      let m := digitsVal [m1, m2]
      let d := digitsVal [d1, d2]
      if 1 ≤ m ∧ m ≤ 12 ∧ 1 ≤ d ∧ d ≤ daysInMonth (y : ℤ) m then some ((y : ℤ), m, d)
      else none
    else none
  | _ => none

/-- JS `new Date(s).getDay()`: 0 = Sunday … 6 = Saturday; NaN (`none`) for an
Invalid Date (day 0, 1970-01-01, was a Thursday, weekday 4). -/
def getDayJS (s : String) : Option ℕ :=
  (parseIso s).map (fun t => (((daysFromCivil t.1 t.2.1 + (t.2.2 : ℤ) - 1) + 4) % 7).toNat)

/-- JS `new Date(s).getDate()`: the day of the month; NaN (`none`) for an
Invalid Date. -/
def getDateJS (s : String) : Option ℕ :=
  (parseIso s).map (fun t => t.2.2)

/-- Bucket accumulation `bucket[k] = (bucket[k] || 0) + day.cost` (lines 612
and 631), folded over the costs that land in one bucket, starting from the
absent-key value 0. -/
def bucketAccum (costs : List JSNum) : JSNum :=
  costs.foldl (fun acc c => jadd (jorDefault acc (some 0)) c) (some 0)

/-- Total of one bucket: the accumulated costs of the days whose key is `k`
(`none` is the `NaN` bucket an Invalid Date produces). -/
def bucketSum (dc : List DailyCostData) (keyOf : DailyCostData → Option ℕ) (k : Option ℕ) :
    JSNum :=
  bucketAccum ((dc.filter (fun r => keyOf r == k)).map (fun r => r.cost))

/-- The keys of a bucket object in the order `Object.entries` enumerates them:
numeric-string keys ascending, then the `"NaN"` key (insertion-ordered,
non-index-like) if any Invalid Date occurred. -/
def bucketKeys (dc : List DailyCostData) (keyOf : DailyCostData → Option ℕ)
    (range : List ℕ) : List (Option ℕ) :=
  (range.filter (fun k => dc.any (fun r => keyOf r == some k))).map some
    ++ (if dc.any (fun r => (keyOf r).isNone) then [none] else [])

/-- Sum of `Object.values` of a bucket object (`reduce((sum, cost) => sum + cost, 0)`). -/
def bucketValuesSum (dc : List DailyCostData) (keyOf : DailyCostData → Option ℕ)
    (ks : List (Option ℕ)) : JSNum :=
  (ks.map (bucketSum dc keyOf)).foldl jadd (some 0)

/-- The day-name table of line 618; an Invalid-Date key indexes the array at
NaN, which is `undefined` in the rendered text. -/
def weekdayName : Option ℕ → String
  | some i => (["Sunday", "Monday", "Tuesday", "Wednesday", "Thursday", "Friday",
                "Saturday"].getD i "undefined")
  | none => "undefined"

/-- Rendered key of the monthly bucket (the object key string, `"NaN"` for the
Invalid-Date bucket). -/
def monthDayName : Option ℕ → String
  | some i => toString i
  | none => "NaN"

/-- One seasonality pattern (exported interface `SeasonalityPattern`).  The
source renders `impact` into a percentage string via `toFixed(2)`; the
embedding keeps the numeric value. -/
structure SeasonalityPattern where
  type : String
  description : String
  impact : JSNum
deriving DecidableEq

/-- The Seasonality Analyzer, `detectSeasonality` lines 601-646: empty input
short-circuits to an empty list; otherwise a weekly pass (buckets by day of
week, average = total/7) and a monthly pass (buckets by day of month, fixed
divisor 31) each emit a pattern for every bucket exceeding 1.2 times the
average. -/
def detectSeasonality (dailyCosts : List DailyCostData) : List SeasonalityPattern :=
  if dailyCosts.isEmpty then []
  else
    let wKeys := bucketKeys dailyCosts (fun r => getDayJS r.date) (List.range 7)
    let wAvg := jdiv (bucketValuesSum dailyCosts (fun r => getDayJS r.date) wKeys) (some 7)
    let weekly := wKeys.filterMap (fun k =>
      let cost := bucketSum dailyCosts (fun r => getDayJS r.date) k
      if jgt cost (jmul wAvg (some (6 / 5))) then
        some { type := "weekly",
               description := "Higher costs on " ++ weekdayName k ++ "s",
               impact := jmul (jdiv (jsub cost wAvg) wAvg) (some 100) }
      else none)
    let mKeys := bucketKeys dailyCosts (fun r => getDateJS r.date) ((List.range 31).map (· + 1))
    let mAvg := jdiv (bucketValuesSum dailyCosts (fun r => getDateJS r.date) mKeys) (some 31)
    let monthly := mKeys.filterMap (fun k =>
      let cost := bucketSum dailyCosts (fun r => getDateJS r.date) k
      if jgt cost (jmul mAvg (some (6 / 5))) then
        some { type := "monthly",
               description := "Higher costs on day " ++ monthDayName k ++ " of the month",
               impact := jmul (jdiv (jsub cost mAvg) mAvg) (some 100) }
      else none)
    weekly ++ monthly

/-- The budget record the chat endpoint reads (`costResponse.data.budget?.properties`,
src/unnamed/part_002 lines 152-155); each `?.amount || 0` access is modelled by
an optional field, `none` covering an absent value. -/
structure BudgetProps where
  amount : JSNum
  currentSpend : JSNum
  forecastSpend : JSNum
deriving DecidableEq

/-- The two alert tiers of lines 163-167; the source renders each into a
message string. -/
inductive AlertKind where
  | lowRemaining
  | overForecast
deriving DecidableEq

/-- Everything the Budget Risk Evaluator derives. -/
structure BudgetEval where
  utilization : JSNum
  remaining : JSNum
  isOverBudget : Bool
  alert : Option AlertKind
deriving DecidableEq

/-- The Budget Risk Evaluator, src/unnamed/part_002 lines 152-168:
`budgetAmount/currentSpend/forecastSpend` default to 0 via `|| 0`;
`budgetUtilization = (currentSpend / budgetAmount) * 100` is computed
unconditionally (with amount 0 the division by zero yields a non-finite value,
`none` here); the guard `budget && budgetAmount > 0` only controls alerting,
where utilization ≥ 90 wins over the forecast-exceeds-budget tier. -/
def evalBudget (budget : Option BudgetProps) : BudgetEval :=
  let budgetAmount := jorDefault (match budget with | some b => b.amount | none => none) (some 0)
  let currentSpend :=
    jorDefault (match budget with | some b => b.currentSpend | none => none) (some 0)
  let forecastSpend :=
    jorDefault (match budget with | some b => b.forecastSpend | none => none) (some 0)
  let utilization := jmul (jdiv currentSpend budgetAmount) (some 100)
  let remaining := jsub budgetAmount currentSpend
  let isOver := jgt forecastSpend budgetAmount
  let alert : Option AlertKind :=
    if budget.isSome && jgt budgetAmount (some 0) then
      if jge utilization (some 90) then some .lowRemaining
      else if isOver then some .overForecast
      else none
    else none
  { utilization := utilization, remaining := remaining, isOverBudget := isOver, alert := alert }

/-- One row of the industry reference table (interface `IndustryBenchmark`;
`unitType` is one of GB/vCPU/Transaction/Hour, kept as a string). -/
structure IndustryBenchmark where
  service : String
  averageCostPerUnit : ℚ
  unitType : String
  percentile50 : ℚ
  percentile90 : ℚ
deriving DecidableEq

/-- Severity tiers of `BenchmarkComparison`. -/
inductive Severity where
  | low
  | medium
  | high
deriving DecidableEq

/-- One comparison entry (interface `BenchmarkComparison`). -/
structure BenchmarkComparison where
  service : String
  clientCost : JSNum
  industryAverage : ℚ
  variancePercentage : JSNum
  potentialSavings : JSNum
  severity : Severity
deriving DecidableEq

/-- The entry built for a matched service (lines 857-867):
`variance = ((cost − average) / average) * 100`, severity
`variance > 20 → high, variance > 10 → medium, else low`,
`potentialSavings = cost − percentile50`. -/
def mkComparison (b : IndustryBenchmark) (s : ServiceCost) : BenchmarkComparison :=
  let variance := jmul (jdiv (jsub s.cost (some b.averageCostPerUnit))
    (some b.averageCostPerUnit)) (some 100)
  { service := s.service
    clientCost := s.cost
    industryAverage := b.averageCostPerUnit
    variancePercentage := variance
    potentialSavings := jsub s.cost (some b.percentile50)
    severity := if jgt variance (some 20) then .high
                else if jgt variance (some 10) then .medium
                else .low }

/-- The body of the map of line 853: `benchmarks.find(b => b.service === service.service)`,
`null` (here `none`) when no reference row matches. -/
def compareOne (benchmarks : List IndustryBenchmark) (s : ServiceCost) :
    Option BenchmarkComparison :=
  (benchmarks.find? (fun b => b.service == s.service)).map (fun b => mkComparison b s)

/-- The Benchmark Comparator, `compareWithBenchmarks` lines 852-869:
map each client entry to its comparison and drop the `null`s
(`.filter(Boolean)`). -/
def compareWithBenchmarks (clientData : List ServiceCost)
    (benchmarks : List IndustryBenchmark) : List BenchmarkComparison :=
  clientData.filterMap (compareOne benchmarks)

/-- The comparison input assembled by `getCostResponseWithBudget` lines
874-878: the per-day service breakdowns are flattened
(`dailyCosts.flatMap(day => day.serviceBreakdown)`) and compared row by row. -/
def benchmarkComparisonsOf (dailyCosts : List DailyCostData)
    (benchmarks : List IndustryBenchmark) : List BenchmarkComparison :=
  compareWithBenchmarks (dailyCosts.flatMap (fun d => d.serviceBreakdown)) benchmarks

/-- Strict lexicographic comparison of character lists; on dashed `YYYY-MM-DD`
strings this is exactly date order. -/
def lexLtChars : List Char → List Char → Bool
  | [], [] => false
  | [], _ :: _ => true
  | _ :: _, [] => false
  | a :: as, b :: bs => if a = b then lexLtChars as bs else decide (a < b)

/-- Whether a list of date strings is in strictly ascending order. -/
def strAscending : List String → Bool
  | [] => true
  | [_] => true
  | a :: b :: r => lexLtChars a.data b.data && strAscending (b :: r)

/-- The claim words of C2, kept verbatim for comparison with the source:
percentage increase = (current − previous) / max(previous, 1) × 100. -/
def claimMaxPct (prev cur : ℚ) : ℚ := (cur - prev) / (max prev 1) * 100

theorem sumJS_append_single (l : List JSNum) (x : JSNum) :
    sumJS (l ++ [x]) = jadd (sumJS l) x := by
  simp [sumJS, List.foldl_append]

theorem addRow_cost_eq (acc : List DailyCostData) (row : Row)
    (h : ∀ r ∈ acc, r.cost = sumJS (r.serviceBreakdown.map (fun s => s.cost))) :
    ∀ r ∈ addRow acc row, r.cost = sumJS (r.serviceBreakdown.map (fun s => s.cost)) := by
  intro r hr
  simp only [addRow] at hr
  by_cases hc : acc.any (fun x => x.date == convertDateKey row.dateKey)
  · rw [if_pos hc] at hr
    obtain ⟨x, hx, hfx⟩ := List.mem_map.1 hr
    by_cases hd : (x.date == convertDateKey row.dateKey) = true
    · rw [if_pos hd] at hfx
      rw [← hfx]
      simp only [List.map_append, List.map_cons, List.map_nil]
      rw [sumJS_append_single, h x hx]
    · rw [if_neg hd] at hfx
      rw [← hfx]
      exact h x hx
  · rw [if_neg hc] at hr
    rcases List.mem_append.1 hr with h1 | h2
    · exact h _ h1
    · simp only [List.mem_singleton] at h2
      rw [h2]
      rfl

theorem foldl_addRow_cost_eq (rows : List Row) :
    ∀ acc, (∀ r ∈ acc, r.cost = sumJS (r.serviceBreakdown.map (fun s => s.cost))) →
      ∀ r ∈ rows.foldl addRow acc, r.cost = sumJS (r.serviceBreakdown.map (fun s => s.cost)) := by
  induction rows with
  | nil => intro acc h; simpa using h
  | cons row rest ih => intro acc h; exact ih _ (addRow_cost_eq acc row h)

/-- Claim C1: every record the Daily Cost Aggregator produces has its day
total equal to the sum of its service-breakdown costs — each row adds its cost
both to the total and to the breakdown, so the invariant holds for every
record of the output (exactly, in the rational model; a NaN cost makes both
sides the same non-finite marker). -/
theorem dailyTotal_eq_breakdown_sum (rows : List Row) (r : DailyCostData)
    (hr : r ∈ getDailyCostData rows) :
    r.cost = sumJS (r.serviceBreakdown.map (fun s => s.cost)) :=
  foldl_addRow_cost_eq rows [] (by simp) r hr

/-- Witness for C1 at a concrete two-row input sharing one date. -/
theorem dailyTotal_eq_breakdown_sum_check :
    (⟨"2025-01-01", some 5, [⟨"A", some 2⟩, ⟨"B", some 3⟩]⟩ : DailyCostData) ∈
        getDailyCostData [⟨.num 2, "20250101", "A"⟩, ⟨.num 3, "20250101", "B"⟩]
      ∧ (⟨"2025-01-01", some 5, [⟨"A", some 2⟩, ⟨"B", some 3⟩]⟩ : DailyCostData).cost
          = sumJS ((⟨"2025-01-01", some 5, [⟨"A", some 2⟩, ⟨"B", some 3⟩]⟩ :
              DailyCostData).serviceBreakdown.map (fun s => s.cost)) := by
  have hout : getDailyCostData [⟨.num 2, "20250101", "A"⟩, ⟨.num 3, "20250101", "B"⟩]
      = [⟨"2025-01-01", some 5, [⟨"A", some 2⟩, ⟨"B", some 3⟩]⟩] := by
    simp only [getDailyCostData, List.foldl_cons, List.foldl_nil, addRow, parseRowCost,
      show convertDateKey "20250101" = "2025-01-01" from by decide,
      List.any_nil, List.any_cons, List.map_cons, List.map_nil]
    norm_num [jadd]
  have hmem : (⟨"2025-01-01", some 5, [⟨"A", some 2⟩, ⟨"B", some 3⟩]⟩ : DailyCostData) ∈
      getDailyCostData [⟨.num 2, "20250101", "A"⟩, ⟨.num 3, "20250101", "B"⟩] := by
    rw [hout]; exact List.mem_singleton.2 rfl
  exact ⟨hmem, dailyTotal_eq_breakdown_sum
    [⟨.num 2, "20250101", "A"⟩, ⟨.num 3, "20250101", "B"⟩] _ hmem⟩

theorem addRow_dates (acc : List DailyCostData) (row : Row) :
    (addRow acc row).map (fun r => r.date)
      = (if convertDateKey row.dateKey ∈ acc.map (fun r => r.date)
         then acc.map (fun r => r.date)
         else acc.map (fun r => r.date) ++ [convertDateKey row.dateKey]) := by
  simp only [addRow]
  by_cases hc : acc.any (fun x => x.date == convertDateKey row.dateKey)
  · rw [if_pos hc, if_pos ?_]
    · rw [List.map_map]
      apply List.map_congr_left
      intro x _
      by_cases hd : (x.date == convertDateKey row.dateKey) = true
      · simp only [Function.comp_apply, if_pos hd]
      · simp only [Function.comp_apply, if_neg hd]
    · obtain ⟨x, hx, hxd⟩ := List.any_eq_true.1 hc
      exact List.mem_map.2 ⟨x, hx, (beq_iff_eq.1 hxd).symm ▸ rfl⟩
  · rw [if_neg hc, if_neg ?_]
    · simp
    · intro hmem
      obtain ⟨x, hx, hxd⟩ := List.mem_map.1 hmem
      exact hc (List.any_eq_true.2 ⟨x, hx, beq_iff_eq.2 hxd⟩)

theorem foldl_addRow_dates (rows : List Row) :
    ∀ acc : List DailyCostData,
      (rows.foldl addRow acc).map (fun r => r.date)
        = rows.foldl
            (fun ds row => if convertDateKey row.dateKey ∈ ds then ds
                           else ds ++ [convertDateKey row.dateKey])
            (acc.map (fun r => r.date)) := by
  induction rows with
  | nil => intro acc; rfl
  | cons row rest ih =>
    intro acc
    rw [List.foldl_cons, List.foldl_cons, ih, addRow_dates]

theorem getDailyCostData_dates (rows : List Row) :
    (getDailyCostData rows).map (fun r => r.date)
      = firstOccs (rows.map (fun row => convertDateKey row.dateKey)) := by
  rw [getDailyCostData, foldl_addRow_dates, firstOccs, List.foldl_map]
  rfl

theorem foldl_firstOccs_nodup (l : List String) :
    ∀ ds : List String, ds.Nodup →
      (l.foldl (fun ds d => if d ∈ ds then ds else ds ++ [d]) ds).Nodup := by
  induction l with
  | nil => intro ds h; exact h
  | cons d r ih =>
    intro ds h
    rw [List.foldl_cons]
    by_cases hd : d ∈ ds
    · rw [if_pos hd]; exact ih ds h
    · rw [if_neg hd]
      refine ih _ ?_
      simp [List.nodup_append, h, hd]

/-- Claim C5, amended: the aggregator emits exactly one record per distinct
date, but in the order each date first appears in the raw rows (JS object
insertion order for the dashed, non-index-like date keys), not sorted by date
ascending.  The hypothesis restricts to non-index-like keys, the regime where
JS insertion-order enumeration applies (every 8-digit billing key converts to
a dashed key, which is never index-like). -/
theorem dailyCost_dates_firstOccur (rows : List Row)
    (hkeys : ∀ row ∈ rows, isArrayIndexKey (convertDateKey row.dateKey) = false) :
    (getDailyCostData rows).map (fun r => r.date)
        = firstOccs (rows.map (fun row => convertDateKey row.dateKey))
      ∧ ((getDailyCostData rows).map (fun r => r.date)).Nodup := by
  refine ⟨getDailyCostData_dates rows, ?_⟩
  rw [getDailyCostData_dates rows, firstOccs]
  exact foldl_firstOccs_nodup _ [] List.nodup_nil

/-- Witness for C5 (amended) at a concrete out-of-order input. -/
theorem dailyCost_dates_firstOccur_check :
    (getDailyCostData ([⟨.num 1, "20250102", "A"⟩, ⟨.num 2, "20250101", "B"⟩,
          ⟨.num 3, "20250102", "C"⟩] : List Row)).map (fun r => r.date)
        = firstOccs (([⟨.num 1, "20250102", "A"⟩, ⟨.num 2, "20250101", "B"⟩,
            ⟨.num 3, "20250102", "C"⟩] : List Row).map (fun row => convertDateKey row.dateKey))
      ∧ ((getDailyCostData ([⟨.num 1, "20250102", "A"⟩, ⟨.num 2, "20250101", "B"⟩,
            ⟨.num 3, "20250102", "C"⟩] : List Row)).map (fun r => r.date)).Nodup :=
  dailyCost_dates_firstOccur _ (by decide)

/-- Counterexample to C5 as stated: two rows arriving with the later date
first produce records in arrival order, not date-ascending order. -/
theorem dailyCost_dates_not_ascending :
    (getDailyCostData [⟨.num 1, "20250102", "A"⟩, ⟨.num 1, "20250101", "B"⟩]).map
          (fun r => r.date)
        = ["2025-01-02", "2025-01-01"]
      ∧ strAscending ((getDailyCostData [⟨.num 1, "20250102", "A"⟩,
            ⟨.num 1, "20250101", "B"⟩]).map (fun r => r.date)) = false := by
  exact ⟨by decide, by decide⟩

/-- Claim C9: on the empty daily series the Seasonality Analyzer returns the
empty pattern list (its explicit empty-input guard) and the Spike Detector
returns the empty spike list (its loop never runs), for every threshold pair;
both are total functions, so no error is possible. -/
theorem empty_series_empty_output :
    detectSeasonality [] = [] ∧ ∀ p a : ℚ, detectCostSpikes [] p a = [] :=
  ⟨rfl, fun _ _ => rfl⟩

theorem spikesGo_zip (p a : ℚ) (l : List DailyCostData) :
    ∀ x, spikesGo p a x l
      = ((x :: l).zip l).filterMap (fun pr => spikeStep p a pr.1 pr.2) := by
  induction l with
  | nil => intro x; rfl
  | cons y r ih =>
    intro x
    rw [spikesGo, ih y, List.zip_cons_cons, List.filterMap_cons]
    cases h : spikeStep p a x y <;> simp [h]

theorem detectCostSpikes_zip (dc : List DailyCostData) (p a : ℚ) :
    detectCostSpikes dc p a
      = (dc.zip dc.tail).filterMap (fun pr => spikeStep p a pr.1 pr.2) := by
  cases dc with
  | nil => rfl
  | cons x l => exact spikesGo_zip p a l x

theorem spikeStep_isSome_iff (p a : ℚ) (prev cur : DailyCostData) (pq cq : ℚ)
    (hp : prev.cost = some pq) (hc : cur.cost = some cq) :
    (spikeStep p a prev cur).isSome
      ↔ (p ≤ (cq - pq) / (if pq = 0 then 1 else pq) * 100 ∨ a ≤ cq - pq) := by
  by_cases h0 : pq = 0
  · simp [spikeStep, hp, hc, jsub, jorDefault, jdiv, jmul, jge, h0,
      apply_ite Option.isSome, Bool.or_eq_true, decide_eq_true_iff]
  · simp [spikeStep, hp, hc, jsub, jorDefault, jdiv, jmul, jge, h0,
      apply_ite Option.isSome, Bool.or_eq_true, decide_eq_true_iff]

/-- Claim C2, amended: the Spike Detector scans adjacent day pairs and, for
finite costs, reports a day exactly when
(current − previous) / previous × 100 ≥ relative threshold — with 1
substituted for the divisor only when previous is 0 (the JS `prev || 1`
guard), not max(previous, 1) — OR current − previous ≥ absolute threshold. -/
theorem spikeDetector_pairwise_rule :
    (∀ (dc : List DailyCostData) (p a : ℚ),
        detectCostSpikes dc p a
          = (dc.zip dc.tail).filterMap (fun pr => spikeStep p a pr.1 pr.2))
    ∧ (∀ (p a pq cq : ℚ) (prev cur : DailyCostData),
        prev.cost = some pq → cur.cost = some cq →
        ((spikeStep p a prev cur).isSome
          ↔ (p ≤ (cq - pq) / (if pq = 0 then 1 else pq) * 100 ∨ a ≤ cq - pq))) :=
  ⟨fun dc p a => detectCostSpikes_zip dc p a,
   fun p a pq cq prev cur hp hc => spikeStep_isSome_iff p a prev cur pq cq hp hc⟩

/-- Witness for C2 (amended) on a concrete adjacent pair. -/
theorem spikeDetector_pairwise_rule_check :
    detectCostSpikes [⟨"d1", some 100, []⟩, ⟨"d2", some 200, []⟩] 5 50
        = (([⟨"d1", some 100, []⟩, ⟨"d2", some 200, []⟩] : List DailyCostData).zip
            ([⟨"d1", some 100, []⟩, ⟨"d2", some 200, []⟩] : List DailyCostData).tail).filterMap
              (fun pr => spikeStep 5 50 pr.1 pr.2)
      ∧ ((spikeStep 5 50 ⟨"d1", some 100, []⟩ ⟨"d2", some 200, []⟩).isSome
          ↔ ((5 : ℚ) ≤ (200 - 100) / (if (100 : ℚ) = 0 then 1 else 100) * 100
              ∨ (50 : ℚ) ≤ 200 - 100)) :=
  ⟨spikeDetector_pairwise_rule.1 _ 5 50,
   spikeDetector_pairwise_rule.2 5 50 100 200 _ _ rfl rfl⟩

/-- Counterexample to C2 as stated: with previous cost 1/2 and current cost 1,
the code divides by the actual previous cost (percentage increase 100%), while
the claim formula divides by max(previous, 1) (percentage increase 50%); at
relative threshold 60 and absolute threshold 1000 the code reports a spike the
claim formula rules out. -/
theorem spikeDetector_maxformula_refuted :
    (detectCostSpikes [⟨"2025-01-01", some (1 / 2), []⟩, ⟨"2025-01-02", some 1, []⟩]
        60 1000).length = 1
      ∧ ¬((60 : ℚ) ≤ claimMaxPct (1 / 2) 1 ∨ (1000 : ℚ) ≤ 1 - 1 / 2) := by
  constructor
  · simp only [detectCostSpikes, spikesGo, spikeStep, jsub, jorDefault, jdiv, jmul, jge]
    norm_num
  · rw [claimMaxPct]
    norm_num

theorem jge_mono {x : JSNum} {t t2 : ℚ} (h : t ≤ t2) (hx : jge x (some t2) = true) :
    jge x (some t) = true := by
  cases x with
  | none => simp [jge] at hx
  | some q =>
    simp only [jge, decide_eq_true_iff] at hx ⊢
    exact le_trans h hx

theorem spikeStep_mono (p a p2 a2 : ℚ) (hp : p ≤ p2) (ha : a ≤ a2)
    (prev cur : DailyCostData) {v : SpikeOut} (h : spikeStep p2 a2 prev cur = some v) :
    spikeStep p a prev cur = some v := by
  simp only [spikeStep] at h ⊢
  by_cases h2 : (jge (jmul (jdiv (jsub cur.cost prev.cost) (jorDefault prev.cost (some 1)))
      (some 100)) (some p2)
      || jge (jsub cur.cost prev.cost) (some a2)) = true
  · rw [if_pos h2] at h
    have h1 : (jge (jmul (jdiv (jsub cur.cost prev.cost) (jorDefault prev.cost (some 1)))
        (some 100)) (some p)
        || jge (jsub cur.cost prev.cost) (some a)) = true := by
      rw [Bool.or_eq_true] at h2 ⊢
      rcases h2 with hh | hh
      · exact Or.inl (jge_mono hp hh)
      · exact Or.inr (jge_mono ha hh)
    rw [if_pos h1]
    exact h
  · rw [if_neg h2] at h
    cases h

theorem filterMap_sublist_of_imp {α β : Type} (f g : α → Option β)
    (h : ∀ x v, f x = some v → g x = some v) (l : List α) :
    List.Sublist (l.filterMap f) (l.filterMap g) := by
  induction l with
  | nil => simp
  | cons x r ih =>
    rw [List.filterMap_cons, List.filterMap_cons]
    cases hf : f x with
    | some v => rw [h x v hf]; exact List.Sublist.cons₂ v ih
    | none =>
      cases hg : g x with
      | some w => exact List.Sublist.cons w ih
      | none => exact ih

/-- Claim C6: the Spike Detector is antitone in its thresholds — raising both
the relative and the absolute threshold makes the reported spike list a
sublist of the one under the lower thresholds, so the number of reported
spikes cannot increase. -/
theorem spikeDetector_threshold_monotone (dc : List DailyCostData) (p a p2 a2 : ℚ)
    (hp : p ≤ p2) (ha : a ≤ a2) :
    List.Sublist (detectCostSpikes dc p2 a2) (detectCostSpikes dc p a)
      ∧ (detectCostSpikes dc p2 a2).length ≤ (detectCostSpikes dc p a).length := by
  have hs : List.Sublist (detectCostSpikes dc p2 a2) (detectCostSpikes dc p a) := by
    rw [detectCostSpikes_zip dc p2 a2, detectCostSpikes_zip dc p a]
    exact filterMap_sublist_of_imp _ _
      (fun pr v h => spikeStep_mono p a p2 a2 hp ha pr.1 pr.2 h) _
  exact ⟨hs, hs.length_le⟩

/-- Witness for C6 on the spec example series [100, 100, 200], lowering
(10, 500) to (5, 50). -/
theorem spikeDetector_threshold_monotone_check :
    List.Sublist
        (detectCostSpikes [⟨"d1", some 100, []⟩, ⟨"d2", some 100, []⟩,
          ⟨"d3", some 200, []⟩] 10 500)
        (detectCostSpikes [⟨"d1", some 100, []⟩, ⟨"d2", some 100, []⟩,
          ⟨"d3", some 200, []⟩] 5 50)
      ∧ (detectCostSpikes [⟨"d1", some 100, []⟩, ⟨"d2", some 100, []⟩,
          ⟨"d3", some 200, []⟩] 10 500).length
          ≤ (detectCostSpikes [⟨"d1", some 100, []⟩, ⟨"d2", some 100, []⟩,
              ⟨"d3", some 200, []⟩] 5 50).length :=
  spikeDetector_threshold_monotone _ 5 50 10 500 (by norm_num) (by norm_num)

/-- Counterexample to C3 as stated: with budget amount 0, current spend 100
and forecast 50, the evaluator indeed raises no alert, but the utilization is
the `none` (non-finite) marker — that value can only arise here from the
unconditional division `currentSpend / budgetAmount` executing with a zero
denominator, so the division is not short-circuited; only alerting is
suppressed. -/
theorem budget_zero_amount_divides :
    (evalBudget (some ⟨some 0, some 100, some 50⟩)).alert = none
      ∧ (evalBudget (some ⟨some 0, some 100, some 50⟩)).utilization = none := by
  constructor
  · simp [evalBudget, jorDefault, jdiv, jmul, jsub, jgt, jge]
  · simp [evalBudget, jorDefault, jdiv, jmul, jsub, jgt, jge]

/-- Claim C3, amended: for a present budget record with amount 0 the Budget
Risk Evaluator raises no alert for any spend and forecast values (the
`budget && budgetAmount > 0` guard suppresses alerting), but the utilization
division `currentSpend / amount` is computed unconditionally, producing a
non-finite value (`none`) that still flows into the assembled context; only
the alert, not the division, is guarded. -/
theorem budget_zero_amount_no_alert (cs fs : ℚ) :
    (evalBudget (some ⟨some 0, some cs, some fs⟩)).alert = none
      ∧ (evalBudget (some ⟨some 0, some cs, some fs⟩)).utilization = none := by
  by_cases hcs : cs = 0 <;> by_cases hfs : fs = 0 <;>
    simp [evalBudget, jorDefault, jdiv, jmul, jsub, jgt, jge, hcs, hfs]

/-- Counterexample to C4 as stated: the Daily Cost Aggregator parses the row
cost with plain `parseFloat`, so the string cost `"₹100"` — whose leading
currency symbol is not stripped — parses to NaN, which is added into the day
total: the aggregated record carries the non-finite marker (`none`), not the
claimed default 0. -/
theorem aggregator_cost_nan_propagates :
    getDailyCostData [⟨.str "₹100", "20250101", "S"⟩]
      = [⟨"2025-01-01", none, [⟨"S", none⟩]⟩] := by
  have hkey : convertDateKey "20250101" = "2025-01-01" := by decide
  have hcost : parseRowCost (.str "₹100") = none := by decide
  simp [getDailyCostData, addRow, hkey, hcost, jadd]

/-- Claim C4, amended: numeric row costs are used as-is by the aggregator, and
`parseFloat` tolerates strings with a numeric prefix; but a string led by a
non-numeric symbol parses to NaN (not 0), and that NaN propagates into the
aggregated day total.  The strip-non-numeric-then-default-to-0 parsing the
claim describes is `parseCost`, applied only in the chat endpoint to the
service breakdown returned by the cost API. -/
theorem aggregator_parse_behavior :
    (∀ q : ℚ, parseRowCost (.num q) = some q)
      ∧ parseRowCost (.str "₹100") = none
      ∧ getDailyCostData [⟨.str "100abc", "20250101", "S"⟩]
          = [⟨"2025-01-01", some 100, [⟨"S", some 100⟩]⟩]
      ∧ parseCost (.str "₹100") = 100
      ∧ parseCost (.str "abc") = 0
      ∧ (∀ q : ℚ, parseCost (.num q) = q) := by
  have hfloat : parseFloatJS "100".data = some 100 := by
    have h1 : List.dropWhile Char.isWhitespace "100".data = ['1', '0', '0'] := by decide
    have h2 : List.takeWhile Char.isDigit ['1', '0', '0'] = ['1', '0', '0'] := by decide
    have h3 : List.dropWhile Char.isDigit ['1', '0', '0'] = [] := by decide
    have h4 : digitsVal ['1', '0', '0'] = 100 := by decide
    have h5 : digitsVal [] = 0 := by decide
    simp +decide only [parseFloatJS, h1, h2, h3, h4, List.head?_cons, List.tail_cons]
    norm_num [h2, h4, h5]
  refine ⟨fun q => rfl, by decide, ?_, ?_, by decide, fun q => rfl⟩
  · have hkey : convertDateKey "20250101" = "2025-01-01" := by decide
    have hcost : parseRowCost (.str "100abc") = some 100 := by
      show parseFloatJS "100abc".data = some 100
      have h1 : List.dropWhile Char.isWhitespace "100abc".data
          = ['1', '0', '0', 'a', 'b', 'c'] := by decide
      have h2 : List.takeWhile Char.isDigit ['1', '0', '0', 'a', 'b', 'c']
          = ['1', '0', '0'] := by decide
      have h3 : List.dropWhile Char.isDigit ['1', '0', '0', 'a', 'b', 'c']
          = ['a', 'b', 'c'] := by decide
      have h4 : digitsVal ['1', '0', '0'] = 100 := by decide
      have h5 : digitsVal [] = 0 := by decide
      simp +decide only [parseFloatJS, h1, h2, h3, h4, List.head?_cons, List.tail_cons]
      norm_num [h2, h4, h5]
    simp [getDailyCostData, addRow, hkey, hcost, jadd]
  · simp only [parseCost]
    rw [show ("₹100").data.filter (fun c => c.isDigit || c = '.' || c = '-')
        = "100".data from by decide, hfloat]

theorem jsMakeDate_shift (y m d k : ℤ) : jsMakeDate y m (d - k) = jsMakeDate y m d - k := by
  simp only [jsMakeDate]
  ring

/-- Claim C7: the Time-Range Resolver maps "last 45 days" to a custom window
with start = today − 45 days and end = today, and maps any input matching
neither the month-year pattern, nor the last-N-days pattern, nor one of the
four switch literals to the month-to-date timeframe; being a total function it
never fails. -/
theorem timeRange_last45_and_default :
    (∀ now : JsNow, getTimeRange now "last 45 days"
        = { timeframe := "Custom", start := some (todayNum now - 45),
            stop := some (todayNum now) })
    ∧ (∀ (now : JsNow) (s : String),
        findMonthYear (s.data.map Char.toLower) = none →
        findLastDays (s.data.map Char.toLower) = none →
        s.data.map Char.toLower ≠ "last month".data →
        s.data.map Char.toLower ≠ "last 3 months".data →
        s.data.map Char.toLower ≠ "last 6 months".data →
        s.data.map Char.toLower ≠ "year to date".data →
        getTimeRange now s = { timeframe := "MonthToDate" }) := by
  constructor
  · intro now
    have h1 : findMonthYear ("last 45 days".data.map Char.toLower) = none := by decide
    have h2 : findLastDays ("last 45 days".data.map Char.toLower) = some 45 := by decide
    simp only [getTimeRange, h1, h2, todayNum]
    rw [show ((45 : ℕ) : ℤ) = (45 : ℤ) from rfl, jsMakeDate_shift]
  · intro now s h1 h2 h3 h4 h5 h6
    simp only [getTimeRange, h1, h2, if_neg h3, if_neg h4, if_neg h5, if_neg h6]

/-- Witness for C7 on a concrete date and on the unmatched input
"42 bananas". -/
theorem timeRange_last45_and_default_check :
    getTimeRange ⟨2025, 9, 11⟩ "last 45 days"
        = { timeframe := "Custom", start := some (todayNum ⟨2025, 9, 11⟩ - 45),
            stop := some (todayNum ⟨2025, 9, 11⟩) }
      ∧ getTimeRange ⟨2025, 9, 11⟩ "42 bananas" = { timeframe := "MonthToDate" } :=
  ⟨timeRange_last45_and_default.1 _,
   timeRange_last45_and_default.2 _ "42 bananas" (by decide) (by decide) (by decide)
     (by decide) (by decide) (by decide)⟩

/-- Claim C8: a client service with a matching reference row (of nonzero
average) yields a comparison whose variance is
(clientCost − average) / average × 100, whose potential savings are
clientCost − percentile50, and whose severity is high above 20, medium above
10, low otherwise. -/
theorem benchmark_matched_fields (clientData : List ServiceCost)
    (benchmarks : List IndustryBenchmark) (s : ServiceCost) (b : IndustryBenchmark) (c : ℚ)
    (hs : s ∈ clientData)
    (hf : benchmarks.find? (fun x => x.service == s.service) = some b)
    (hc : s.cost = some c) (havg : b.averageCostPerUnit ≠ 0) :
    ∃ cmp ∈ compareWithBenchmarks clientData benchmarks,
      cmp.service = s.service ∧
      cmp.clientCost = some c ∧
      cmp.industryAverage = b.averageCostPerUnit ∧
      cmp.variancePercentage
        = some ((c - b.averageCostPerUnit) / b.averageCostPerUnit * 100) ∧
      cmp.potentialSavings = some (c - b.percentile50) ∧
      cmp.severity = (if 20 < (c - b.averageCostPerUnit) / b.averageCostPerUnit * 100
                      then Severity.high
                      else if 10 < (c - b.averageCostPerUnit) / b.averageCostPerUnit * 100
                      then Severity.medium
                      else Severity.low) := by
  have hv : jmul (jdiv (jsub s.cost (some b.averageCostPerUnit)) (some b.averageCostPerUnit))
      (some 100) = some ((c - b.averageCostPerUnit) / b.averageCostPerUnit * 100) := by
    simp [hc, jsub, jdiv, jmul, havg]
  refine ⟨mkComparison b s, List.mem_filterMap.2 ⟨s, hs, by simp [compareOne, hf]⟩,
    rfl, ?_, rfl, ?_, ?_, ?_⟩
  · simp [mkComparison, hc]
  · simp only [mkComparison, hv]
  · simp [mkComparison, hc, jsub]
  · simp only [mkComparison, hv, jgt, decide_eq_true_eq]

/-- Witness for C8 on the Storage fallback reference row. -/
theorem benchmark_matched_fields_check :
    ∃ cmp ∈ compareWithBenchmarks [⟨"Storage", some (3 / 100)⟩]
        [⟨"Storage", 23 / 1000, "GB", 18 / 1000, 28 / 1000⟩],
      cmp.service = "Storage" ∧
      cmp.clientCost = some (3 / 100) ∧
      cmp.industryAverage = (23 / 1000 : ℚ) ∧
      cmp.variancePercentage = some ((3 / 100 - 23 / 1000) / (23 / 1000) * 100) ∧
      cmp.potentialSavings = some ((3 : ℚ) / 100 - 18 / 1000) ∧
      cmp.severity = (if (20 : ℚ) < (3 / 100 - 23 / 1000) / (23 / 1000) * 100
                      then Severity.high
                      else if (10 : ℚ) < (3 / 100 - 23 / 1000) / (23 / 1000) * 100
                      then Severity.medium
                      else Severity.low) :=
  benchmark_matched_fields [⟨"Storage", some (3 / 100)⟩]
    [⟨"Storage", 23 / 1000, "GB", 18 / 1000, 28 / 1000⟩]
    ⟨"Storage", some (3 / 100)⟩ ⟨"Storage", 23 / 1000, "GB", 18 / 1000, 28 / 1000⟩
    (3 / 100) (List.mem_singleton.2 rfl) rfl rfl (by norm_num)

theorem compare_filter_eq (benchmarks : List IndustryBenchmark) (sname : String) :
    ∀ cd : List ServiceCost,
      (compareWithBenchmarks cd benchmarks).filter (fun cmp => cmp.service == sname)
        = (match benchmarks.find? (fun b => b.service == sname) with
           | some b => (cd.filter (fun s => s.service == sname)).map (mkComparison b)
           | none => []) := by
  intro cd
  induction cd with
  | nil =>
    cases benchmarks.find? (fun b => b.service == sname) <;>
      simp [compareWithBenchmarks]
  | cons s cs ih =>
    by_cases hsv : s.service = sname
    · have hpred : (fun b : IndustryBenchmark => b.service == s.service)
          = (fun b => b.service == sname) := by
        funext b
        rw [hsv]
      cases hb : benchmarks.find? (fun b => b.service == sname) with
      | some b =>
        have hone : compareOne benchmarks s = some (mkComparison b s) := by
          rw [compareOne, hpred, hb]
          rfl
        rw [compareWithBenchmarks, List.filterMap_cons, hone, List.filter_cons,
          if_pos (by simp [mkComparison, hsv] : ((mkComparison b s).service == sname) = true),
          show List.filterMap (compareOne benchmarks) cs
            = compareWithBenchmarks cs benchmarks from rfl, ih, hb,
          List.filter_cons, if_pos (by simp [hsv] : (s.service == sname) = true)]
        rfl
      | none =>
        have hone : compareOne benchmarks s = none := by
          rw [compareOne, hpred, hb]
          rfl
        rw [compareWithBenchmarks, List.filterMap_cons, hone,
          show List.filterMap (compareOne benchmarks) cs
            = compareWithBenchmarks cs benchmarks from rfl, ih, hb]
    · cases hone : compareOne benchmarks s with
      | some v =>
        have hvs : v.service = s.service := by
          rw [compareOne] at hone
          cases hfb : benchmarks.find? (fun b => b.service == s.service) with
          | some b =>
            rw [hfb] at hone
            have hbv : mkComparison b s = v := by simpa using hone
            rw [← hbv]
            rfl
          | none =>
            rw [hfb] at hone
            cases hone
        rw [compareWithBenchmarks, List.filterMap_cons, hone, List.filter_cons,
          if_neg (by simp [hvs, hsv]),
          show List.filterMap (compareOne benchmarks) cs
            = compareWithBenchmarks cs benchmarks from rfl, ih,
          List.filter_cons, if_neg (by simp [hsv])]
      | none =>
        rw [compareWithBenchmarks, List.filterMap_cons, hone,
          show List.filterMap (compareOne benchmarks) cs
            = compareWithBenchmarks cs benchmarks from rfl, ih,
          List.filter_cons, if_neg (by simp [hsv])]

/-- Claim C10: the Benchmark Comparator runs on the day-flattened service
breakdown — for a service with a matching reference row, the comparison list
restricted to that service is exactly the per-day breakdown rows of that
service mapped through the per-row comparison (one entry per daily row,
computed from that row's cost), and a service with no reference row
contributes no entry. -/
theorem benchmark_flattened_per_row (dailyCosts : List DailyCostData)
    (benchmarks : List IndustryBenchmark) (sname : String) :
    (∀ b, benchmarks.find? (fun x => x.service == sname) = some b →
      (benchmarkComparisonsOf dailyCosts benchmarks).filter (fun cmp => cmp.service == sname)
        = ((dailyCosts.flatMap (fun d => d.serviceBreakdown)).filter
            (fun s => s.service == sname)).map (mkComparison b))
    ∧ (benchmarks.find? (fun x => x.service == sname) = none →
      (benchmarkComparisonsOf dailyCosts benchmarks).filter (fun cmp => cmp.service == sname)
        = []) := by
  constructor
  · intro b hb
    rw [benchmarkComparisonsOf, compare_filter_eq benchmarks sname, hb]
  · intro hb
    rw [benchmarkComparisonsOf, compare_filter_eq benchmarks sname, hb]

/-- Witness for C10: a Storage reference row matches the two daily Storage
breakdown rows and an unknown service matches nothing. -/
theorem benchmark_flattened_per_row_check :
    (benchmarkComparisonsOf
          [⟨"2025-01-01", some 5, [⟨"Storage", some 2⟩, ⟨"Other", some 3⟩]⟩,
           ⟨"2025-01-02", some 4, [⟨"Storage", some 4⟩]⟩]
          [⟨"Storage", 23 / 1000, "GB", 18 / 1000, 28 / 1000⟩]).filter
        (fun cmp => cmp.service == "Storage")
      = ((([⟨"2025-01-01", some 5, [⟨"Storage", some 2⟩, ⟨"Other", some 3⟩]⟩,
            ⟨"2025-01-02", some 4, [⟨"Storage", some 4⟩]⟩] : List DailyCostData).flatMap
            (fun d => d.serviceBreakdown)).filter (fun s => s.service == "Storage")).map
          (mkComparison ⟨"Storage", 23 / 1000, "GB", 18 / 1000, 28 / 1000⟩)
    ∧ (benchmarkComparisonsOf
          [⟨"2025-01-01", some 5, [⟨"Storage", some 2⟩, ⟨"Other", some 3⟩]⟩,
           ⟨"2025-01-02", some 4, [⟨"Storage", some 4⟩]⟩]
          [⟨"Storage", 23 / 1000, "GB", 18 / 1000, 28 / 1000⟩]).filter
        (fun cmp => cmp.service == "Missing") = [] :=
  ⟨(benchmark_flattened_per_row _ _ "Storage").1
      ⟨"Storage", 23 / 1000, "GB", 18 / 1000, 28 / 1000⟩ rfl,
   (benchmark_flattened_per_row _ _ "Missing").2 rfl⟩
